import Mathlib

/-!
Verification development for the WMS tester (wms_tester.py).

The embedding covers the Box geometry, the random subbox generator, the
walking and zooming bounding-box tests, the request execution with its
retry logic, the thread wrapper, the result reporting of IOTools, the
submission loop of main with its connection renewal, the semaphore-bounded
thread pool, and the class-level shared basic-parameter dictionary.

Coordinates are modelled as rationals (the data model calls them
real-valued).  Random draws of the program are passed to the embedded
functions explicitly, together with decidable predicates recording the
bounds the corresponding randint calls impose on them, so that every
theorem quantifies over all outcomes of the internal random choices.
-/

/-- Two-dimensional box given by its lower-left and upper-right corners. -/
structure Box where
  lowerx : ℚ
  lowery : ℚ
  upperx : ℚ
  uppery : ℚ
deriving DecidableEq

/-- Box.contains of the source: the given box is within the borders of
this box (all four comparisons are inclusive). -/
def Box.contains (self box : Box) : Bool :=
  decide (box.lowerx ≥ self.lowerx) && decide (box.lowery ≥ self.lowery) &&
  decide (box.upperx ≤ self.upperx) && decide (box.uppery ≤ self.uppery)

/-- Box.shiftX: translate both x edges by step. -/
def Box.shiftX (self : Box) (step : ℚ) : Box :=
  { self with lowerx := self.lowerx + step, upperx := self.upperx + step }

/-- Box.shiftY: translate both y edges by step. -/
def Box.shiftY (self : Box) (step : ℚ) : Box :=
  { self with lowery := self.lowery + step, uppery := self.uppery + step }

/-- Box.zoom: expand (positive step) or shrink (negative step) the box by
step on each of the four sides. -/
def Box.zoom (self : Box) (step : ℚ) : Box :=
  { self with lowerx := self.lowerx - step, lowery := self.lowery - step,
              upperx := self.upperx + step, uppery := self.uppery + step }

/-- The data-model invariant of Box: lower coordinates do not exceed the
upper ones on either axis. -/
def Box.invariantHolds (b : Box) : Bool :=
  decide (b.lowerx ≤ b.upperx) && decide (b.lowery ≤ b.uppery)

/-- Python int() applied to a rational: truncation toward zero. -/
def pyInt (q : ℚ) : ℤ := if 0 ≤ q then ⌊q⌋ else ⌈q⌉

/-- The six randint draws consumed by one generateRandomSubbox call, in
order of consumption: the per-axis precision draws and the integer
position and size draws. -/
structure SubboxDraws where
  digitsx : ℕ
  randxZ : ℤ
  randwZ : ℤ
  digitsy : ℕ
  randyZ : ℤ
  randhZ : ℤ
deriving DecidableEq

/-- The bounds the four positional randint calls of generateRandomSubbox
impose on the draws.  In the fractional-digit branch the lower randint
bound is the unscaled lower coordinate while the upper bound is scaled by
10 to the digits, exactly as in the source. -/
def subboxDrawsValid (self : Box) (minwidth minheight : ℚ)
    (maxfractionaldigits : ℕ) (d : SubboxDraws) : Bool :=
  decide (d.digitsx ≤ maxfractionaldigits) &&
  decide (d.digitsy ≤ maxfractionaldigits) &&
  (if d.digitsx ≠ 0 then
    decide (self.lowerx ≤ (d.randxZ : ℚ)) &&
    decide ((d.randxZ : ℚ) ≤ (self.upperx - minwidth) * 10 ^ d.digitsx) &&
    decide (minwidth * 10 ^ d.digitsx ≤ (d.randwZ : ℚ)) &&
    decide ((d.randwZ : ℚ) ≤ self.upperx * 10 ^ d.digitsx - (d.randxZ : ℚ))
  else
    decide (self.lowerx ≤ (d.randxZ : ℚ)) &&
    decide ((d.randxZ : ℚ) ≤ self.upperx - minwidth) &&
    decide (minwidth ≤ (d.randwZ : ℚ)) &&
    decide ((d.randwZ : ℚ) ≤ self.upperx - (d.randxZ : ℚ))) &&
  (if d.digitsy ≠ 0 then
    decide (self.lowery ≤ (d.randyZ : ℚ)) &&
    decide ((d.randyZ : ℚ) ≤ (self.uppery - minheight) * 10 ^ d.digitsy) &&
    decide (minheight * 10 ^ d.digitsy ≤ (d.randhZ : ℚ)) &&
    decide ((d.randhZ : ℚ) ≤ self.uppery * 10 ^ d.digitsy - (d.randyZ : ℚ))
  else
    decide (self.lowery ≤ (d.randyZ : ℚ)) &&
    decide ((d.randyZ : ℚ) ≤ self.uppery - minheight) &&
    decide (minheight ≤ (d.randhZ : ℚ)) &&
    decide ((d.randhZ : ℚ) ≤ self.uppery - (d.randyZ : ℚ)))

/-- Box.generateRandomSubbox of the source, with the random draws passed
in.  Each axis: in the fractional-digit branch the drawn position and
size integers are divided by 10 to the digits and the edge correction of
the source (shift down by 1 plus the minimum size when the scaled-back
position exceeds upper minus the minimum size) is applied; otherwise the
draws are used directly. -/
def Box.generateRandomSubbox (self : Box) (minwidth minheight : ℚ)
    (d : SubboxDraws) : Box :=
  let xr : ℚ × ℚ :=
    if d.digitsx ≠ 0 then
      let p : ℚ := 10 ^ d.digitsx
      let randx0 : ℚ := (d.randxZ : ℚ) / p
      let randx1 : ℚ :=
        if randx0 > self.upperx - minwidth then randx0 - 1 - minwidth else randx0
      (randx1, (d.randwZ : ℚ) / p)
    else
      ((d.randxZ : ℚ), (d.randwZ : ℚ))
  let yr : ℚ × ℚ :=
    if d.digitsy ≠ 0 then
      let p : ℚ := 10 ^ d.digitsy
      let randy0 : ℚ := (d.randyZ : ℚ) / p
      let randy1 : ℚ :=
        if randy0 > self.uppery - minheight then randy0 - 1 - minheight else randy0
      (randy1, (d.randhZ : ℚ) / p)
    else
      ((d.randyZ : ℚ), (d.randhZ : ℚ))
  Box.mk xr.1 yr.1 (xr.1 + xr.2) (yr.1 + yr.2)

/-- Marker for the out-of-extent failure raised by the explicit-step
branches of the walking and zooming tests. -/
inductive StepError where
  | outOfExtent
deriving DecidableEq

/-- State of a ZoomingBoxWMSTest relevant to zoomBoundingBox. -/
structure ZoomingBoxWMSTest where
  boundingbox : Box
  spatialextent : Box
  minboxwidth : ℚ
  maxboxwidth : ℚ
deriving DecidableEq

/-- The maxstep value the random branch of zoomBoundingBox computes: the
Python int of the minimum of maxboxwidth and the four remaining
clearances of the bounding box to the extent edges. -/
def ZoomingBoxWMSTest.maxstep (t : ZoomingBoxWMSTest) : ℤ :=
  pyInt (min t.maxboxwidth
    (min (t.spatialextent.upperx - t.boundingbox.upperx)
      (min (t.spatialextent.uppery - t.boundingbox.uppery)
        (min (t.boundingbox.lowerx - t.spatialextent.lowerx)
          (t.boundingbox.lowery - t.spatialextent.lowery)))))

/-- The bounds the randint call of the random branch of zoomBoundingBox
imposes on the drawn step: between min(minboxwidth, maxstep) and
max(minboxwidth, maxstep). -/
def ZoomingBoxWMSTest.zoomDrawValid (t : ZoomingBoxWMSTest) (draw : ℤ) : Bool :=
  decide (min t.minboxwidth (t.maxstep : ℚ) ≤ (draw : ℚ)) &&
  decide ((draw : ℚ) ≤ max t.minboxwidth (t.maxstep : ℚ))

/-- ZoomingBoxWMSTest.zoomBoundingBox of the source.  A step of 0 selects
the random branch, which zooms by the drawn step without any containment
check.  A nonzero explicit step zooms, checks containment against the
spatial extent, and on failure zooms back and raises. -/
def ZoomingBoxWMSTest.zoomBoundingBox (t : ZoomingBoxWMSTest) (draw : ℤ)
    (step : ℚ) : Option StepError × ZoomingBoxWMSTest :=
  if step = 0 then
    (none, { t with boundingbox := t.boundingbox.zoom (draw : ℚ) })
  else
    let b := t.boundingbox.zoom step
    if t.spatialextent.contains b then (none, { t with boundingbox := b })
    else (some .outOfExtent, { t with boundingbox := b.zoom (-step) })

/-- State of a WalkingBoundingBoxWMSTest relevant to moveBoundingBox. -/
structure WalkingBoundingBoxWMSTest where
  boundingbox : Box
  spatialextent : Box
  minstepwidth : ℚ
  maxstepwidth : ℚ
deriving DecidableEq

/-- WalkingBoundingBoxWMSTest.moveBoundingBox of the source.  Per axis, a
step of 0 selects the random branch (a direction draw and a magnitude
draw, applied without rechecking containment); a nonzero explicit step is
applied, containment is checked, and on failure the axis shift is undone
and the call raises, so the y axis is not processed when the x step
fails. -/
def WalkingBoundingBoxWMSTest.moveBoundingBox (t : WalkingBoundingBoxWMSTest)
    (dirx : Bool) (xdraw : ℤ) (diry : Bool) (ydraw : ℤ) (xstep ystep : ℚ) :
    Option StepError × WalkingBoundingBoxWMSTest :=
  let xres : Option StepError × Box :=
    if xstep = 0 then
      (none, t.boundingbox.shiftX (if dirx then (xdraw : ℚ) else -(xdraw : ℚ)))
    else
      let b := t.boundingbox.shiftX xstep
      if t.spatialextent.contains b then (none, b)
      else (some .outOfExtent, b.shiftX (-xstep))
  match xres with
  | (some e, bx) => (some e, { t with boundingbox := bx })
  | (none, bx) =>
    let yres : Option StepError × Box :=
      if ystep = 0 then
        (none, bx.shiftY (if diry then (ydraw : ℚ) else -(ydraw : ℚ)))
      else
        let b := bx.shiftY ystep
        if t.spatialextent.contains b then (none, b)
        else (some .outOfExtent, b.shiftY (-ystep))
    (yres.1, { t with boundingbox := yres.2 })

/-- Outcome of one send call on the transport collaborator.  The err case
records whether the string of the raised exception contains the substring
busy, which is the recognition the source applies. -/
inductive SendOutcome where
  | ok
  | err (busyMsg : Bool)
deriving DecidableEq

/-- Observable effects of one WMSTest.execute call: session ids each send
attempt used in order, ids of sessions the call constructed itself, ids of
sessions it closed, the seconds slept, the stored result (none when no
WMSTestResult was assigned, some b when one was assigned with b recording
whether it carries a response object), and whether an exception escaped
the call. -/
structure ExecTrace where
  sendSessions : List ℕ
  freshCreated : List ℕ
  closedSessions : List ℕ
  slept : ℕ
  result : Option Bool
  raised : Bool
deriving DecidableEq

/-- WMSTest.execute of the source.  The session test of the source reads:
if not session or not isinstance(session, Session), send on the given
session object; else construct a fresh Session, send on it and close it.
A send failure whose message contains busy sleeps 5 seconds and resends
once on the same session variable; any other failure re-raises.  The
parameter freshId names the Session object the call would construct, and
attempt1 and attempt2 give the transport outcomes of the first and second
send on it. -/
def WMSTest.executeT (dry : Bool) (session : Option ℕ) (freshId : ℕ)
    (attempt1 attempt2 : SendOutcome) : ExecTrace :=
  if dry then
    { sendSessions := [], freshCreated := [], closedSessions := [],
      slept := 0, result := some false, raised := false }
  else
    match session with
    | none =>
      -- branch for a missing session: the source calls send on None,
      -- which raises an attribute error whose message does not contain
      -- busy, so the handler re-raises
      { sendSessions := [], freshCreated := [], closedSessions := [],
        slept := 0, result := none, raised := true }
    | some _ =>
      -- branch for a valid Session: a fresh Session is constructed,
      -- used for the send and closed afterwards
      match attempt1 with
      | .ok =>
        { sendSessions := [freshId], freshCreated := [freshId],
          closedSessions := [freshId], slept := 0,
          result := some true, raised := false }
      | .err busy =>
        if busy then
          match attempt2 with
          | .ok =>
            { sendSessions := [freshId, freshId], freshCreated := [freshId],
              closedSessions := [], slept := 5,
              result := some true, raised := false }
          | .err _ =>
            { sendSessions := [freshId, freshId], freshCreated := [freshId],
              closedSessions := [], slept := 5,
              result := none, raised := true }
        else
          { sendSessions := [freshId], freshCreated := [freshId],
            closedSessions := [], slept := 0,
            result := none, raised := true }

/-- Observable effects of WMSTestThread.run: whether the caught exception
was printed, whether the test was put on the completion queue, whether
the semaphore slot was released, and whether the session of the thread
was closed. -/
structure RunEffects where
  printedError : Bool
  enqueued : Bool
  released : Bool
  closedSession : Bool
deriving DecidableEq

/-- WMSTestThread.run of the source: execute inside a try block whose
handler prints the exception, then close the session when keepalive is
False, put the test on the completion queue and release the slot. -/
def WMSTestThread.runT (keepalive : Bool) (tr : ExecTrace) : RunEffects :=
  { printedError := tr.raised, enqueued := true, released := true,
    closedSession := !keepalive }

/-- Output format argument of IOTools.outputTest; plain stands for the
default line format used when no csv format was selected. -/
inductive OutputFormat where
  | csv
  | plain
deriving DecidableEq

/-- Python errors the reporting path can raise. -/
inductive PyError where
  | attributeError
deriving DecidableEq

/-- IOTools.outputTest of the source applied to the stored result of a
test (none when execute failed, some b with b recording response
presence).  In csv format the source first calls getCSV on the result,
then close on it, which calls close on the response; in the plain format
it reads response.elapsed when a result is present and then calls close
on the result.  Every path therefore raises an attribute error unless a
result with a response is present. -/
def IOTools.outputTest (fmt : OutputFormat) (result : Option Bool) :
    Except PyError Unit :=
  match fmt, result with
  | .csv, none => .error .attributeError
  | .csv, some b => if b then .ok () else .error .attributeError
  | .plain, none => .error .attributeError
  | .plain, some b => if b then .ok () else .error .attributeError

/-- Draining loop of main applied to a list of completed test results:
reports them in order through IOTools.outputTest, returning the number of
tests reported before the first raised error together with that error, if
any.  An error propagates out of main and ends the run. -/
def reportBatch (fmt : OutputFormat) : List (Option Bool) → ℕ × Option PyError
  | [] => (0, none)
  | r :: rs =>
    match IOTools.outputTest fmt r with
    | .error e => (0, some e)
    | .ok _ =>
      let rest := reportBatch fmt rs
      (rest.1 + 1, rest.2)

/-- MAX_CONNECTIONS of the source. -/
def MAX_CONNECTIONS : ℕ := 256

/-- State of the submission loop of main: the running connection count,
the generation number of the current shared Session (0 for the Session
created before the loop, incremented at each renewal), and the number of
renewals performed. -/
structure SubmitState where
  connectioncount : ℕ
  sessionGen : ℕ
  renewals : ℕ
deriving DecidableEq

/-- One iteration of the submission loop of main: increment the
connection count, start the thread (see launchFor for the arguments it
receives), and when the count reaches MAX_CONNECTIONS replace the shared
session by a fresh one and reset the count to 0. -/
def submitOne (s : SubmitState) : SubmitState :=
  let cc := s.connectioncount + 1
  if cc == MAX_CONNECTIONS then
    { connectioncount := 0, sessionGen := s.sessionGen + 1,
      renewals := s.renewals + 1 }
  else { s with connectioncount := cc }

/-- The submission loop of main after n launches, starting from the
state with the initial Session. -/
def submitN : ℕ → SubmitState
  | 0 => { connectioncount := 0, sessionGen := 0, renewals := 0 }
  | n + 1 => submitOne (submitN n)

/-- The arguments passed to the WMSTestThread started at launch n + 1:
the generation of the shared Session it receives and the keepalive flag,
which the source computes as connectioncount == MAX_CONNECTIONS after
the increment. -/
def launchFor (n : ℕ) : ℕ × Bool :=
  ((submitN n).sessionGen, (submitN n).connectioncount + 1 == MAX_CONNECTIONS)

/-- State of the thread-pool semaphore of main: the free slots of the
semaphore and the number of worker threads between their slot
acquisition and their release. -/
structure PoolState where
  available : ℕ
  running : ℕ
deriving DecidableEq

/-- Events of the dispatch engine touching the semaphore: the submitting
thread acquires a slot before starting a worker, and a worker releases
its slot at the end of run. -/
inductive PoolStep : PoolState → PoolState → Prop
  | submit (s : PoolState) (h : 0 < s.available) :
      PoolStep s { available := s.available - 1, running := s.running + 1 }
  | complete (s : PoolState) (h : 0 < s.running) :
      PoolStep s { available := s.available + 1, running := s.running - 1 }

/-- Initial pool state: the semaphore of main holds k free slots and no
worker is running. -/
def initPool (k : ℕ) : PoolState := { available := k, running := 0 }

/-- The pool states reachable during a run with k worker slots. -/
def PoolReachable (k : ℕ) (s : PoolState) : Prop :=
  Relation.ReflTransGen PoolStep (initPool k) s

/-- Parameter dictionary: ordered key-value pairs of strings. -/
abbrev ParamDict := List (String × String)

/-- Item assignment on a Python dictionary: overwrite the value of an
existing key, otherwise append the new pair. -/
def ParamDict.setP (d : ParamDict) (k v : String) : ParamDict :=
  if d.any (fun kv => kv.1 == k) then
    d.map (fun kv => if kv.1 == k then (k, v) else kv)
  else d ++ [(k, v)]

/-- Heap model for the basicparameters attribute of WMSTest: the single
dictionary object stored on the class, and for each instance in creation
order the dictionary its own attribute table holds under the name
basicparameters, if any.  The source only ever item-assigns through
self.basicparameters and never attribute-assigns it, so instances never
acquire an own entry. -/
structure PyWorld where
  classDict : ParamDict
  instances : List (Option ParamDict)

/-- The dictionary the instance attribute table of instance i holds for
basicparameters, none when attribute lookup falls through to the class. -/
def instSlot : List (Option ParamDict) → ℕ → Option ParamDict
  | [], _ => none
  | d :: _, 0 => d
  | _ :: rest, i + 1 => instSlot rest i

/-- Reading self.basicparameters on instance i: the own attribute when
present, otherwise the class dictionary. -/
def lookupBasicparameters (w : PyWorld) (i : ℕ) : ParamDict :=
  (instSlot w.instances i).getD w.classDict

/-- Item assignment self.basicparameters[k] = v on instance i: the write
mutates whichever dictionary object attribute lookup resolves to. -/
def writeThroughInstance (w : PyWorld) (i : ℕ) (k v : String) : PyWorld :=
  match instSlot w.instances i with
  | none => { w with classDict := w.classDict.setP k v }
  | some d => { w with instances := w.instances.set i (some (d.setP k v)) }

/-- The operations the program performs on WMSTest objects that touch
basicparameters: construction (which item-assigns the five protocol
parameters), clone (deepcopy, which copies the instance attribute table),
setBasicParameter, setSRS and setFormat. -/
inductive WMSTestOp where
  | construct
  | cloneOf (i : ℕ)
  | setBasicParameter (i : ℕ) (k v : String)
  | setSRS (i : ℕ) (v : String)
  | setFormat (i : ℕ) (v : String)

/-- Effect of one WMSTest operation on the heap model.  Construction
appends an instance with no own basicparameters entry and performs the
five writes of the initializer through it; clone copies the instance
attribute entry of the cloned instance; the three setters item-assign
through the receiving instance. -/
def applyOp (w : PyWorld) : WMSTestOp → PyWorld
  | .construct =>
    let w1 : PyWorld := { w with instances := w.instances ++ [none] }
    let i := w1.instances.length - 1
    let w2 := writeThroughInstance w1 i "service" "WMS"
    let w3 := writeThroughInstance w2 i "version" "1.1.0"
    let w4 := writeThroughInstance w3 i "request" "GetMap"
    let w5 := writeThroughInstance w4 i "srs" "EPSG:4326"
    writeThroughInstance w5 i "format" "image/png"
  | .cloneOf i => { w with instances := w.instances ++ [instSlot w.instances i] }
  | .setBasicParameter i k v => writeThroughInstance w i k v
  | .setSRS i v => writeThroughInstance w i "srs" v
  | .setFormat i v => writeThroughInstance w i "format" v

/-- The heap after running a sequence of WMSTest operations from the
initial state of the module: an empty class dictionary and no
instances. -/
def runOps (ops : List WMSTestOp) : PyWorld :=
  ops.foldl applyOp { classDict := [], instances := [] }

/-- Invariant of all reachable heaps: no instance ever holds an own
basicparameters entry, so every instance aliases the class dictionary. -/
def allClassShared (w : PyWorld) : Prop :=
  ∀ d ∈ w.instances, d = none

/-- Concrete zooming test for the failing random zoom: the box touches
the lower-left corner of the default extent and leaves a clearance of 2
to the two upper edges, smaller than the default minboxwidth of 5. -/
def zoomCex : ZoomingBoxWMSTest :=
  { boundingbox := Box.mk (-180) (-90) 178 88,
    spatialextent := Box.mk (-180) (-90) 180 90,
    minboxwidth := 5, maxboxwidth := 180 }

/-- Concrete zooming test for the random-zoom witness: a centred box
with clearances 90 and 45, well above minboxwidth. -/
def zoomWit : ZoomingBoxWMSTest :=
  { boundingbox := Box.mk (-90) (-45) 90 45,
    spatialextent := Box.mk (-180) (-90) 180 90,
    minboxwidth := 5, maxboxwidth := 180 }

/-- Concrete walking test for the explicit-step failure: the unit box at
the corner of a 10 by 10 extent, so an x step of 1 stays inside while a
y step of 100 overflows. -/
def walkCex : WalkingBoundingBoxWMSTest :=
  { boundingbox := Box.mk 0 0 1 1, spatialextent := Box.mk 0 0 10 10,
    minstepwidth := 1, maxstepwidth := 12 }

/-- Concrete zooming test for the explicit-step failure witness. -/
def zoomWitExplicit : ZoomingBoxWMSTest :=
  { boundingbox := Box.mk 0 0 5 5, spatialextent := Box.mk 0 0 10 10,
    minboxwidth := 5, maxboxwidth := 180 }

/-- Concrete zooming test for the invariant-breaking shrink: a 10 by 10
box far inside the default extent, shrunk by an explicit step of -6. -/
def zoomShrinkCex : ZoomingBoxWMSTest :=
  { boundingbox := Box.mk 0 0 10 10,
    spatialextent := Box.mk (-180) (-90) 180 90,
    minboxwidth := 5, maxboxwidth := 180 }

/-
Theorems.
-/

theorem contains_iff (a b : Box) :
    a.contains b = true ↔
      a.lowerx ≤ b.lowerx ∧ a.lowery ≤ b.lowery ∧
      b.upperx ≤ a.upperx ∧ b.uppery ≤ a.uppery := by
  simp [Box.contains, and_assoc, ge_iff_le]

theorem pyInt_le_of_le {q c : ℚ} (h : q ≤ c) (hc : 0 ≤ c) :
    (pyInt q : ℚ) ≤ c := by
  unfold pyInt
  split
  · exact le_trans (by exact_mod_cast Int.floor_le q) h
  · rename_i hq
    push_neg at hq
    have h0 : (⌈q⌉ : ℤ) ≤ 0 := Int.ceil_le.mpr (by exact_mod_cast hq.le)
    calc ((⌈q⌉ : ℤ) : ℚ) ≤ 0 := by exact_mod_cast h0
      _ ≤ c := hc

/-- C2: the random subbox generator can leave the extent.  With extent
(10, 0, 20, 10), minimum sizes 1 and maxfractionaldigits 1, the draws
digitsx = 1, randx = 10, randwidth = 10, digitsy = 0, randy = 0,
randheight = 1 are all admitted by the randint bounds of the source
(whose scaled branch leaves the lower randint bound unscaled), yet the
generated box (1, 0, 2, 1) lies outside the extent, refuting the claimed
containment contract.  The minimum-size parts of the contract do hold on
this outcome. -/
theorem c2_subbox_outside_extent :
    subboxDrawsValid (Box.mk 10 0 20 10) 1 1 1
      { digitsx := 1, randxZ := 10, randwZ := 10,
        digitsy := 0, randyZ := 0, randhZ := 1 } = true ∧
    (Box.mk 10 0 20 10).generateRandomSubbox 1 1
      { digitsx := 1, randxZ := 10, randwZ := 10,
        digitsy := 0, randyZ := 0, randhZ := 1 } = Box.mk 1 0 2 1 ∧
    (Box.mk 10 0 20 10).contains (Box.mk 1 0 2 1) = false := by
  refine ⟨by norm_num [subboxDrawsValid], ?_, by norm_num [Box.contains]⟩
  norm_num [Box.generateRandomSubbox]

/-- C3: execute with a valid Session does not send on it.  With a valid
session object (id 5) and a successful send, the source takes the branch
that constructs a fresh Session (id 99), sends on it and closes it; the
given session is never used for the send.  The claim that the request
goes out on exactly the given Session is refuted. -/
theorem c3_execute_uses_fresh_session :
    (WMSTest.executeT false (some 5) 99 .ok .ok).sendSessions = [99] ∧
    (WMSTest.executeT false (some 5) 99 .ok .ok).freshCreated = [99] ∧
    (WMSTest.executeT false (some 5) 99 .ok .ok).closedSessions = [99] ∧
    ¬ 5 ∈ (WMSTest.executeT false (some 5) 99 .ok .ok).sendSessions := by
  refine ⟨rfl, rfl, rfl, ?_⟩
  simp [WMSTest.executeT]

/-- C4: a no-argument zoomBoundingBox call can leave the extent.  For the
zooming test zoomCex the box is inside the extent but the minimum
clearance is 2, so maxstep computes to 0; the randint call then draws
from min(5, 0) = 0 to max(5, 0) = 5, and the admitted draw 5 zooms the
box to (-185, -95, 183, 93), outside the extent.  The claim that the
chosen magnitude never exceeds the minimum remaining clearance is
refuted. -/
theorem c4_random_zoom_escapes :
    zoomCex.spatialextent.contains zoomCex.boundingbox = true ∧
    zoomCex.zoomDrawValid 5 = true ∧
    (zoomCex.zoomBoundingBox 5 0).1 = none ∧
    zoomCex.spatialextent.contains
      (zoomCex.zoomBoundingBox 5 0).2.boundingbox = false := by
  refine ⟨by norm_num [zoomCex, Box.contains], ?_, ?_, ?_⟩
  · norm_num [zoomCex, ZoomingBoxWMSTest.zoomDrawValid,
      ZoomingBoxWMSTest.maxstep, pyInt]
  · simp [ZoomingBoxWMSTest.zoomBoundingBox]
  · simp only [ZoomingBoxWMSTest.zoomBoundingBox, if_pos]
    norm_num [zoomCex, Box.contains, Box.zoom]

/-- C4 (amended): for a ZoomingBox test whose box lies inside the extent,
a no-argument zoomBoundingBox call keeps the box inside the extent for
every outcome of the random step choice, provided minboxwidth is at most
the computed maxstep (the Python int of the minimum of maxboxwidth and
the four clearances); without that proviso the randint upper bound
max(minboxwidth, maxstep) can exceed the clearance, as the
counterexample shows. -/
theorem c4_random_zoom_contained (t : ZoomingBoxWMSTest) (draw : ℤ)
    (hin : t.spatialextent.contains t.boundingbox = true)
    (hmb : t.minboxwidth ≤ (t.maxstep : ℚ))
    (hd : t.zoomDrawValid draw = true) :
    t.spatialextent.contains (t.zoomBoundingBox draw 0).2.boundingbox = true := by
  rw [contains_iff] at hin
  obtain ⟨h1, h2, h3, h4⟩ := hin
  simp only [ZoomingBoxWMSTest.zoomDrawValid, Bool.and_eq_true,
    decide_eq_true_eq] at hd
  have hdm : (draw : ℚ) ≤ (t.maxstep : ℚ) := by
    have := hd.2
    rwa [max_eq_right hmb] at this
  set m : ℚ := min t.maxboxwidth
    (min (t.spatialextent.upperx - t.boundingbox.upperx)
      (min (t.spatialextent.uppery - t.boundingbox.uppery)
        (min (t.boundingbox.lowerx - t.spatialextent.lowerx)
          (t.boundingbox.lowery - t.spatialextent.lowery)))) with hm
  have hms : t.maxstep = pyInt m := by rw [hm]; rfl
  have e1 : m ≤ t.spatialextent.upperx - t.boundingbox.upperx :=
    le_trans (min_le_right _ _) (min_le_left _ _)
  have e2 : m ≤ t.spatialextent.uppery - t.boundingbox.uppery :=
    le_trans (min_le_right _ _) (le_trans (min_le_right _ _) (min_le_left _ _))
  have e3 : m ≤ t.boundingbox.lowerx - t.spatialextent.lowerx :=
    le_trans (min_le_right _ _)
      (le_trans (min_le_right _ _) (le_trans (min_le_right _ _) (min_le_left _ _)))
  have e4 : m ≤ t.boundingbox.lowery - t.spatialextent.lowery :=
    le_trans (min_le_right _ _)
      (le_trans (min_le_right _ _) (le_trans (min_le_right _ _) (min_le_right _ _)))
  have c1 : (t.maxstep : ℚ) ≤ t.spatialextent.upperx - t.boundingbox.upperx := by
    rw [hms]; exact pyInt_le_of_le e1 (by linarith)
  have c2 : (t.maxstep : ℚ) ≤ t.spatialextent.uppery - t.boundingbox.uppery := by
    rw [hms]; exact pyInt_le_of_le e2 (by linarith)
  have c3 : (t.maxstep : ℚ) ≤ t.boundingbox.lowerx - t.spatialextent.lowerx := by
    rw [hms]; exact pyInt_le_of_le e3 (by linarith)
  have c4 : (t.maxstep : ℚ) ≤ t.boundingbox.lowery - t.spatialextent.lowery := by
    rw [hms]; exact pyInt_le_of_le e4 (by linarith)
  simp only [ZoomingBoxWMSTest.zoomBoundingBox, if_pos]
  rw [contains_iff]
  simp only [Box.zoom]
  refine ⟨by linarith, by linarith, by linarith, by linarith⟩

/-- C4 witness: the amended claim evaluated on the zooming test zoomWit
with draw 10, whose maxstep is 45. -/
theorem c4_random_zoom_contained_witness :
    zoomWit.spatialextent.contains zoomWit.boundingbox = true ∧
    zoomWit.minboxwidth ≤ (zoomWit.maxstep : ℚ) ∧
    zoomWit.zoomDrawValid 10 = true ∧
    zoomWit.spatialextent.contains
      (zoomWit.zoomBoundingBox 10 0).2.boundingbox = true := by
  have h1 : zoomWit.spatialextent.contains zoomWit.boundingbox = true := by
    norm_num [zoomWit, Box.contains]
  have h2 : zoomWit.minboxwidth ≤ (zoomWit.maxstep : ℚ) := by
    norm_num [zoomWit, ZoomingBoxWMSTest.maxstep, pyInt]
  have h3 : zoomWit.zoomDrawValid 10 = true := by
    norm_num [zoomWit, ZoomingBoxWMSTest.zoomDrawValid,
      ZoomingBoxWMSTest.maxstep, pyInt]
  exact ⟨h1, h2, h3, c4_random_zoom_contained zoomWit 10 h1 h2 h3⟩

theorem shiftX_neg_cancel (b : Box) (s : ℚ) : (b.shiftX s).shiftX (-s) = b := by
  cases b
  simp only [Box.shiftX, Box.mk.injEq]
  exact ⟨by ring_nf, by simp⟩

theorem shiftY_neg_cancel (b : Box) (s : ℚ) : (b.shiftY s).shiftY (-s) = b := by
  cases b
  simp only [Box.shiftY, Box.mk.injEq]
  exact ⟨by ring_nf, by simp⟩

theorem zoom_neg_cancel (b : Box) (s : ℚ) : (b.zoom s).zoom (-s) = b := by
  cases b
  simp only [Box.zoom, Box.mk.injEq]
  refine ⟨by ring_nf, by ring_nf, by ring_nf, by ring_nf⟩

/-- C5: an explicit out-of-range step does not always leave the box
unchanged.  On the walking test walkCex, moveBoundingBox with explicit
steps x = 1 and y = 100 fails (the y shift leaves the extent and
raises), yet the final bounding box is (1, 0, 2, 1): the successful x
shift is retained, so the box differs from its pre-step value
(0, 0, 1, 1).  The claim that a failing explicit step leaves the box
equal on both axes to its prior value is refuted. -/
theorem c5_retained_x_shift :
    (walkCex.moveBoundingBox true 0 true 0 1 100).1 = some .outOfExtent ∧
    (walkCex.moveBoundingBox true 0 true 0 1 100).2.boundingbox = Box.mk 1 0 2 1 ∧
    walkCex.boundingbox = Box.mk 0 0 1 1 ∧
    ¬ (walkCex.moveBoundingBox true 0 true 0 1 100).2.boundingbox =
        walkCex.boundingbox := by
  norm_num [walkCex, WalkingBoundingBoxWMSTest.moveBoundingBox,
    Box.shiftX, Box.shiftY, Box.contains]

/-- C5 (amended): when the explicit x step (or an explicit zoom step)
would leave the extent, the call fails with the out-of-extent condition
and the box is unchanged on both axes; when the explicit x step stays
inside but the explicit y step would leave the extent, the call fails
with the out-of-extent condition, the y axis reverts, but the box keeps
the applied x shift. -/
theorem c5_explicit_step_failure (t : WalkingBoundingBoxWMSTest)
    (z : ZoomingBoxWMSTest) (dirx : Bool) (xdraw : ℤ) (diry : Bool)
    (ydraw : ℤ) (zdraw : ℤ) (xstep ystep zstep : ℚ)
    (hx : xstep ≠ 0) (hy : ystep ≠ 0) (hz : zstep ≠ 0) :
    (t.spatialextent.contains (t.boundingbox.shiftX xstep) = false →
      t.moveBoundingBox dirx xdraw diry ydraw xstep ystep =
        (some .outOfExtent, t)) ∧
    (t.spatialextent.contains (t.boundingbox.shiftX xstep) = true →
      t.spatialextent.contains ((t.boundingbox.shiftX xstep).shiftY ystep) = false →
      t.moveBoundingBox dirx xdraw diry ydraw xstep ystep =
        (some .outOfExtent, { t with boundingbox := t.boundingbox.shiftX xstep })) ∧
    (z.spatialextent.contains (z.boundingbox.zoom zstep) = false →
      z.zoomBoundingBox zdraw zstep = (some .outOfExtent, z)) := by
  refine ⟨?_, ?_, ?_⟩
  · intro hcx
    simp only [WalkingBoundingBoxWMSTest.moveBoundingBox, if_neg hx, hcx,
      Bool.false_eq_true, if_false]
    rw [shiftX_neg_cancel]
  · intro hcx hcy
    simp only [WalkingBoundingBoxWMSTest.moveBoundingBox, if_neg hx, hcx,
      if_true, if_neg hy, hcy, Bool.false_eq_true, if_false]
    rw [shiftY_neg_cancel]
  · intro hcz
    simp only [ZoomingBoxWMSTest.zoomBoundingBox, if_neg hz, hcz,
      Bool.false_eq_true, if_false]
    rw [zoom_neg_cancel]

/-- C5 witness: the amended claim evaluated on the walking test walkCex
with explicit steps 1 and 100, and on the zooming test zoomWitExplicit
with explicit step 100. -/
theorem c5_explicit_step_failure_witness :
    walkCex.spatialextent.contains (walkCex.boundingbox.shiftX 1) = true ∧
    walkCex.spatialextent.contains
      ((walkCex.boundingbox.shiftX 1).shiftY 100) = false ∧
    walkCex.moveBoundingBox true 0 true 0 1 100 =
      (some .outOfExtent,
        { walkCex with boundingbox := walkCex.boundingbox.shiftX 1 }) ∧
    zoomWitExplicit.spatialextent.contains
      (zoomWitExplicit.boundingbox.zoom 100) = false ∧
    zoomWitExplicit.zoomBoundingBox 0 100 = (some .outOfExtent, zoomWitExplicit) := by
  have hcx : walkCex.spatialextent.contains (walkCex.boundingbox.shiftX 1) = true := by
    norm_num [walkCex, Box.contains, Box.shiftX]
  have hcy : walkCex.spatialextent.contains
      ((walkCex.boundingbox.shiftX 1).shiftY 100) = false := by
    norm_num [walkCex, Box.contains, Box.shiftX, Box.shiftY]
  have hcz : zoomWitExplicit.spatialextent.contains
      (zoomWitExplicit.boundingbox.zoom 100) = false := by
    norm_num [zoomWitExplicit, Box.contains, Box.zoom]
  have h := c5_explicit_step_failure walkCex zoomWitExplicit true 0 true 0 0 1 100 100
    (by norm_num) (by norm_num) (by norm_num)
  exact ⟨hcx, hcy, h.2.1 hcx hcy, hcz, h.2.2 hcz⟩

/-- C6: an explicitly requested shrinking zoom can invert the box.  On
the zooming test zoomShrinkCex, zoomBoundingBox with explicit step -6
shrinks the 10 by 10 box to (6, 6, 4, 4); the containment check of the
source does not compare the lower and upper corners of the zoomed box
with each other, so the mutation is accepted without revert and the
invariant lowerx at most upperx is violated.  The claim that every Box
mutation the program performs preserves the invariant is refuted. -/
theorem c6_shrink_breaks_invariant :
    zoomShrinkCex.boundingbox.invariantHolds = true ∧
    zoomShrinkCex.spatialextent.contains zoomShrinkCex.boundingbox = true ∧
    (zoomShrinkCex.zoomBoundingBox 0 (-6)).1 = none ∧
    (zoomShrinkCex.zoomBoundingBox 0 (-6)).2.boundingbox = Box.mk 6 6 4 4 ∧
    (zoomShrinkCex.zoomBoundingBox 0 (-6)).2.boundingbox.invariantHolds = false := by
  norm_num [zoomShrinkCex, ZoomingBoxWMSTest.zoomBoundingBox, Box.zoom,
    Box.contains, Box.invariantHolds]

/-- C6 (amended): shiftX and shiftY preserve the box invariant for every
step; zoom preserves it provided twice the negated step does not exceed
the width and the height, which covers every non-negative step; an
explicitly requested shrinking step of larger magnitude violates it, as
the counterexample shows. -/
theorem c6_mutations_preserve_invariant (b : Box) (step : ℚ)
    (hb : b.invariantHolds = true) :
    (b.shiftX step).invariantHolds = true ∧
    (b.shiftY step).invariantHolds = true ∧
    (-(2 * step) ≤ b.upperx - b.lowerx → -(2 * step) ≤ b.uppery - b.lowery →
      (b.zoom step).invariantHolds = true) := by
  simp only [Box.invariantHolds, Bool.and_eq_true, decide_eq_true_eq] at hb
  obtain ⟨h1, h2⟩ := hb
  refine ⟨?_, ?_, fun hw hh => ?_⟩ <;>
    simp only [Box.invariantHolds, Box.shiftX, Box.shiftY, Box.zoom,
      Bool.and_eq_true, decide_eq_true_eq] <;>
    constructor <;> linarith

/-- C6 witness: the amended claim evaluated on the box (0, 0, 10, 10)
with step 3. -/
theorem c6_mutations_preserve_invariant_witness :
    (Box.mk 0 0 10 10).invariantHolds = true ∧
    ((Box.mk 0 0 10 10).shiftX 3).invariantHolds = true ∧
    ((Box.mk 0 0 10 10).shiftY 3).invariantHolds = true ∧
    ((Box.mk 0 0 10 10).zoom 3).invariantHolds = true := by
  have hb : (Box.mk 0 0 10 10).invariantHolds = true := by
    norm_num [Box.invariantHolds]
  have h := c6_mutations_preserve_invariant (Box.mk 0 0 10 10) 3 hb
  exact ⟨hb, h.1, h.2.1, h.2.2 (by norm_num) (by norm_num)⟩

theorem poolStep_sum {a b : PoolState} (h : PoolStep a b) (k : ℕ)
    (hs : a.available + a.running = k) : b.available + b.running = k := by
  cases h with
  | submit hlt => dsimp only; omega
  | complete hlt => dsimp only; omega

/-- C7: the semaphore bounds concurrency.  In every pool state reachable
from the initial state with k free slots through submit events (the
acquire of the submitting thread before each worker start) and complete
events (the release at the end of run), at most k workers are between
their slot acquisition and their release. -/
theorem c7_running_bounded (k : ℕ) (s : PoolState) (_hk : 0 < k)
    (h : PoolReachable k s) : s.running ≤ k := by
  have hsum : s.available + s.running = k := by
    unfold PoolReachable at h
    induction h with
    | refl => rfl
    | tail hab step ih => exact poolStep_sum step k ih
  omega

/-- C7 witness: with 2 slots, the state after one submit event is
reachable and runs at most 2 workers. -/
theorem c7_running_bounded_witness :
    PoolReachable 2 (PoolState.mk 1 1) ∧ (PoolState.mk 1 1).running ≤ 2 := by
  have h : PoolReachable 2 (PoolState.mk 1 1) :=
    Relation.ReflTransGen.single (PoolStep.submit (initPool 2) (by norm_num [initPool]))
  exact ⟨h, c7_running_bounded 2 (PoolState.mk 1 1) (by norm_num) h⟩

theorem submitN_closed (n : ℕ) :
    (submitN n).connectioncount = n % 256 ∧
    (submitN n).sessionGen = n / 256 ∧
    (submitN n).renewals = n / 256 := by
  induction n with
  | zero => exact ⟨rfl, rfl, rfl⟩
  | succ n ih =>
    obtain ⟨h1, h2, h3⟩ := ih
    show (submitOne (submitN n)).connectioncount = _ ∧
      (submitOne (submitN n)).sessionGen = _ ∧
      (submitOne (submitN n)).renewals = _
    unfold submitOne MAX_CONNECTIONS
    rw [h1, h2, h3]
    by_cases hc : n % 256 + 1 = 256
    · rw [if_pos (by simpa using hc)]
      refine ⟨by dsimp only; omega, by dsimp only; omega, by dsimp only; omega⟩
    · rw [if_neg (by simpa using hc)]
      refine ⟨by dsimp only; omega, by dsimp only; omega, by dsimp only; omega⟩

theorem launchFor_closed (n : ℕ) :
    launchFor n = (n / 256, n % 256 + 1 == 256) := by
  obtain ⟨h1, h2, -⟩ := submitN_closed n
  unfold launchFor MAX_CONNECTIONS
  rw [h1, h2]

/-- C8: renewal happens once per 256 launches but the closing mark is
inverted.  After 257 launches the session was renewed exactly once and
the counter restarted; every launch n receives the session of generation
(n - 1) / 256, so launches 1 to 256 get the first session and launch 257
the fresh one; however the 256th launch carries keepalive True, so its
thread does not close its transport context after completing, while
launch 1 (like every launch other than a 256th one) carries keepalive
False and so does close the shared context after its test.  This refutes
the part of the claim stating that the 256th launch is marked to close
its context after completion. -/
theorem c8_renewal_and_keepalive :
    (submitN 257).renewals = 1 ∧
    (submitN 257).connectioncount = 1 ∧
    (submitN 512).renewals = 2 ∧
    (∀ n, launchFor n = (n / 256, n % 256 + 1 == 256)) ∧
    launchFor 255 = (0, true) ∧
    launchFor 0 = (0, false) ∧
    launchFor 256 = (1, false) ∧
    (WMSTestThread.runT true (WMSTest.executeT true none 0 .ok .ok)).closedSession
      = false ∧
    (WMSTestThread.runT false (WMSTest.executeT true none 0 .ok .ok)).closedSession
      = true := by
  refine ⟨(submitN_closed 257).2.2, (submitN_closed 257).1,
    (submitN_closed 512).2.2, launchFor_closed, ?_, ?_, ?_, rfl, rfl⟩
  · rw [launchFor_closed]; decide
  · rw [launchFor_closed]; decide
  · rw [launchFor_closed]; decide

/-- C9: the retry policy of execute.  For every session id, fresh id and
second-attempt outcome: when the first send fails with a message
recognized as the busy condition, execute sleeps exactly 5 seconds and
sends exactly twice, both times on the same session; when the first send
fails with a message not recognized as busy, execute sends exactly once,
does not sleep, and the exception escapes execute but is caught by run,
which still enqueues the test and releases the slot, so sibling probes
and the batch are not aborted. -/
theorem c9_retry_policy (sid fid : ℕ) (a2 : SendOutcome) (k : Bool) :
    ((WMSTest.executeT false (some sid) fid (.err true) a2).slept = 5 ∧
     (WMSTest.executeT false (some sid) fid (.err true) a2).sendSessions
       = [fid, fid]) ∧
    ((WMSTest.executeT false (some sid) fid (.err false) a2).sendSessions = [fid] ∧
     (WMSTest.executeT false (some sid) fid (.err false) a2).slept = 0 ∧
     (WMSTest.executeT false (some sid) fid (.err false) a2).raised = true ∧
     (WMSTestThread.runT k
        (WMSTest.executeT false (some sid) fid (.err false) a2)).enqueued = true ∧
     (WMSTestThread.runT k
        (WMSTest.executeT false (some sid) fid (.err false) a2)).released = true) := by
  cases a2 <;> simp [WMSTest.executeT, WMSTestThread.runT]

/-- C1: the reporting path aborts on a failed or dry probe, so not every
submitted probe gets reported.  Both workers of a two-probe batch
enqueue their test (run catches the execute failure), but the draining
loop of main reports only the first result: on the failed probe, whose
stored result is None, outputTest raises an attribute error that
propagates out of main, so 1 instead of 2 results are reported.  A
dry-run batch is reported 0 times for the same reason, since its results
carry no response object and close raises.  This refutes the claim that
exactly N results are always reported. -/
theorem c1_reporting_aborts :
    (WMSTestThread.runT true (WMSTest.executeT false (some 1) 2 .ok .ok)).enqueued
      = true ∧
    (WMSTestThread.runT true
      (WMSTest.executeT false (some 1) 2 (.err false) .ok)).enqueued = true ∧
    reportBatch .csv
      [(WMSTest.executeT false (some 1) 2 .ok .ok).result,
       (WMSTest.executeT false (some 1) 2 (.err false) .ok).result]
      = (1, some .attributeError) ∧
    reportBatch .plain [(WMSTest.executeT true none 0 .ok .ok).result]
      = (0, some .attributeError) := by
  decide

theorem instSlot_eq_none {l : List (Option ParamDict)}
    (h : ∀ d ∈ l, d = none) (i : ℕ) : instSlot l i = none := by
  induction l generalizing i with
  | nil => cases i <;> rfl
  | cons d rest ih =>
    cases i with
    | zero => exact h d (List.mem_cons_self d rest)
    | succ n => exact ih (fun x hx => h x (List.mem_cons_of_mem d hx)) n

theorem writeThrough_shared {w : PyWorld} (hw : allClassShared w)
    (i : ℕ) (k v : String) :
    writeThroughInstance w i k v = { w with classDict := w.classDict.setP k v } := by
  unfold writeThroughInstance
  rw [instSlot_eq_none hw i]

theorem writeThrough_preserves {w : PyWorld} (hw : allClassShared w)
    (i : ℕ) (k v : String) : allClassShared (writeThroughInstance w i k v) := by
  rw [writeThrough_shared hw]
  exact hw

theorem lookup_eq_class {w : PyWorld} (hw : allClassShared w) (i : ℕ) :
    lookupBasicparameters w i = w.classDict := by
  unfold lookupBasicparameters
  rw [instSlot_eq_none hw i]
  rfl

theorem lookup_writeThrough {w : PyWorld} (hw : allClassShared w)
    (a i : ℕ) (k v : String) :
    lookupBasicparameters (writeThroughInstance w a k v) i =
      (lookupBasicparameters w i).setP k v := by
  rw [writeThrough_shared hw, lookup_eq_class hw i]
  exact lookup_eq_class (w := { w with classDict := w.classDict.setP k v }) hw i

theorem appendNone_shared {w : PyWorld} (hw : allClassShared w) :
    allClassShared { w with instances := w.instances ++ [none] } := by
  intro d hd
  rcases List.mem_append.mp hd with h | h
  · exact hw d h
  · simpa using h

theorem applyOp_preserves {w : PyWorld} (hw : allClassShared w)
    (op : WMSTestOp) : allClassShared (applyOp w op) := by
  cases op with
  | construct =>
    have h1 := appendNone_shared hw
    exact writeThrough_preserves (writeThrough_preserves (writeThrough_preserves
      (writeThrough_preserves (writeThrough_preserves h1 _ _ _) _ _ _) _ _ _)
        _ _ _) _ _ _
  | cloneOf i =>
    intro d hd
    rcases List.mem_append.mp hd with h | h
    · exact hw d h
    · have hd2 : d = instSlot w.instances i := by simpa using h
      rw [hd2, instSlot_eq_none hw]
  | setBasicParameter i k v => exact writeThrough_preserves hw i k v
  | setSRS i v => exact writeThrough_preserves hw i "srs" v
  | setFormat i v => exact writeThrough_preserves hw i "format" v

theorem runOps_shared (ops : List WMSTestOp) : allClassShared (runOps ops) := by
  have hstep : ∀ w, allClassShared w → allClassShared (ops.foldl applyOp w) := by
    induction ops with
    | nil => exact fun w hw => hw
    | cons op rest ih => exact fun w hw => ih _ (applyOp_preserves hw op)
  exact hstep _ (fun d hd => by cases hd)

theorem lookup_construct {w : PyWorld} (hw : allClassShared w) (i : ℕ) :
    lookupBasicparameters (applyOp w .construct) i =
      (((((lookupBasicparameters w i).setP "service" "WMS").setP
        "version" "1.1.0").setP "request" "GetMap").setP
        "srs" "EPSG:4326").setP "format" "image/png" := by
  have h1 := appendNone_shared hw
  have h2 := writeThrough_preserves h1
    ({ w with instances := w.instances ++ [none] } : PyWorld).instances.length.pred
    "service" "WMS"
  show lookupBasicparameters (writeThroughInstance (writeThroughInstance
    (writeThroughInstance (writeThroughInstance (writeThroughInstance
      { w with instances := w.instances ++ [none] } _ "service" "WMS")
        _ "version" "1.1.0") _ "request" "GetMap") _ "srs" "EPSG:4326")
          _ "format" "image/png") i = _
  rw [lookup_writeThrough (writeThrough_preserves (writeThrough_preserves
    (writeThrough_preserves (writeThrough_preserves h1 _ _ _) _ _ _) _ _ _) _ _ _)]
  rw [lookup_writeThrough (writeThrough_preserves (writeThrough_preserves
    (writeThrough_preserves h1 _ _ _) _ _ _) _ _ _)]
  rw [lookup_writeThrough (writeThrough_preserves (writeThrough_preserves h1 _ _ _) _ _ _)]
  rw [lookup_writeThrough (writeThrough_preserves h1 _ _ _)]
  rw [lookup_writeThrough h1]
  rw [lookup_eq_class h1 i, lookup_eq_class hw i]

/-- C10: basicparameters is one class-level dictionary shared by every
WMSTest instance and clone.  After any sequence of the program
operations (construction, cloning, setBasicParameter, setSRS,
setFormat), any two instances observe the same parameter mapping;
setBasicParameter, setSRS or setFormat performed through any instance a
updates the mapping observed by every instance i; and constructing a new
WMSTest rewrites the five protocol parameters in the mapping observed by
every already existing instance. -/
theorem c10_basicparameters_shared (ops : List WMSTestOp) (i j a : ℕ)
    (k v : String) :
    lookupBasicparameters (runOps ops) i = lookupBasicparameters (runOps ops) j ∧
    lookupBasicparameters (applyOp (runOps ops) (.setBasicParameter a k v)) i =
      (lookupBasicparameters (runOps ops) i).setP k v ∧
    lookupBasicparameters (applyOp (runOps ops) (.setSRS a v)) i =
      (lookupBasicparameters (runOps ops) i).setP "srs" v ∧
    lookupBasicparameters (applyOp (runOps ops) (.setFormat a v)) i =
      (lookupBasicparameters (runOps ops) i).setP "format" v ∧
    lookupBasicparameters (applyOp (runOps ops) .construct) i =
      (((((lookupBasicparameters (runOps ops) i).setP "service" "WMS").setP
        "version" "1.1.0").setP "request" "GetMap").setP
        "srs" "EPSG:4326").setP "format" "image/png" := by
  have hw := runOps_shared ops
  refine ⟨?_, ?_, ?_, ?_, lookup_construct hw i⟩
  · rw [lookup_eq_class hw i, lookup_eq_class hw j]
  · exact lookup_writeThrough hw a i k v
  · exact lookup_writeThrough hw a i "srs" v
  · exact lookup_writeThrough hw a i "format" v
